import Mathlib

/-!
Verification development for the IFRNet helper scripts
(`interpolate_video.py` and `download_checkpoints.py`).

The scripts are shallowly embedded: the frame-rate upconverter's scheduling
logic becomes pure functions over an abstract frame type `α`, with the
external pairwise interpolation capability passed in as a function
`interp : α → α → ℚ → α`; the checkpoint fetcher's control flow becomes a
function over an abstract network response and archive outcome.  Python's
float arithmetic on the small fps ratios involved is modelled with `ℚ`;
Python's `round` (banker's rounding, ties to even) is modelled by `pyRound`.
Fallible operations (float division by zero, indexing `frames[-1]` on an
empty list) are modelled with explicit error values.
-/

namespace IFRNet

/-! ## Frame-rate upconverter (`interpolate_video.py`, `main`) -/

/-- Errors the upconverter can raise mid-run.
`zeroDivisionError` models Python raising on `args.target_fps / fps` when
the decoder reports `fps == 0` (line 68); `indexError` models `frames[-1]`
on an empty frame list (line 97). -/
inductive UpErr where
  | zeroDivisionError
  | indexError
  deriving DecidableEq, Repr

/-- Python 3 `round` to the nearest integer, ties to even (banker's
rounding), on the exact rational value.  `int(round(factor))` in the source
is this value, since `round` on a float already returns an int. -/
def pyRound (q : ℚ) : ℤ :=
  if q - ⌊q⌋ < 1/2 then ⌊q⌋
  else if 1/2 < q - ⌊q⌋ then ⌊q⌋ + 1
  else if 2 ∣ ⌊q⌋ then ⌊q⌋ else ⌊q⌋ + 1

/-- Lines 69-71: `if factor <= 1: factor = 1`. -/
def clampFactor (factor : ℚ) : ℚ :=
  if factor ≤ 1 then 1 else factor

/-- The normalized time positions of the inner loop, lines 93-94:
`for k in range(1, interp_count + 1): t = k / (interp_count + 1)`,
i.e. `k / (N + 1)` for `k = 1 .. N` in ascending order. -/
def interpTimes (N : ℕ) : List ℚ :=
  (List.range N).map (fun k => ((k + 1 : ℕ) : ℚ) / ((N + 1 : ℕ) : ℚ))

/-- One iteration of the outer loop body, lines 91-96: write `f0` verbatim,
then the `N` synthetic frames `interp f0 f1 t` at the ascending times. -/
def pairWrites (interp : α → α → ℚ → α) (N : ℕ) (f0 f1 : α) : List α :=
  f0 :: (interpTimes N).map (interp f0 f1)

/-- The outer loop, line 90: `for i in range(len(frames) - 1)` walks the
consecutive pairs `(frames[i], frames[i+1])`; rendered as structural
recursion over the frame list. -/
def pairLoop (interp : α → α → ℚ → α) (N : ℕ) : List α → List α
  | f0 :: f1 :: rest => pairWrites interp N f0 f1 ++ pairLoop interp N (f1 :: rest)
  | _ => []

/-- The arguments of each invocation of `interpolate_frame` made by the
inner loop for one pair, line 95, paired with its time position. -/
def pairCalls (N : ℕ) (f0 f1 : α) : List (α × α × ℚ) :=
  (interpTimes N).map (fun t => (f0, f1, t))

/-- All invocations of `interpolate_frame` made by the full loop of
lines 90-96, in program order. -/
def callLoop (N : ℕ) : List α → List (α × α × ℚ)
  | f0 :: f1 :: rest => pairCalls N f0 f1 ++ callLoop N (f1 :: rest)
  | _ => []

/-- Lines 90-97: the per-pair loop followed by `out.write(frames[-1])`.
Returns the frames written to the output stream in order, together with
the error raised, if any: on an empty list, `frames[-1]` raises an
IndexError after the (empty) loop, so nothing has been written. -/
def runWrites (interp : α → α → ℚ → α) (N : ℕ) (frames : List α) :
    List α × Option UpErr :=
  match frames.getLast? with
  | none => (pairLoop interp N frames, some UpErr.indexError)
  | some last => (pairLoop interp N frames ++ [last], none)

/-- Lines 68-97 of `main`: compute `factor = target_fps / fps` (raising
ZeroDivisionError when `fps == 0`, before any frame is written), clamp it
to a minimum of 1, compute `interp_count = int(round(factor)) - 1`, and run
the write loop.  `Int.toNat` reflects that `range(1, interp_count + 1)` is
empty for a non-positive count. -/
def upconvert (interp : α → α → ℚ → α) (target_fps fps : ℚ)
    (frames : List α) : List α × Option UpErr :=
  if fps = 0 then ([], some UpErr.zeroDivisionError)
  else
    let factor := clampFactor (target_fps / fps)
    let interp_count := (pyRound factor - 1).toNat
    runWrites interp interp_count frames

/-- Modelled from the spec's description of the scheduling output (§4.2,
§8): every original frame followed by its `N` evenly-time-spaced synthetic
frames, the final frame verbatim with nothing after it.  Used as the
specification side of the refinement statement for the write loop. -/
def uniformInterleave (interp : α → α → ℚ → α) (N : ℕ) : List α → List α
  | [] => []
  | [f] => [f]
  | f0 :: f1 :: rest =>
      (f0 :: (interpTimes N).map (interp f0 f1)) ++ uniformInterleave interp N (f1 :: rest)

/-! ## Checkpoint loading (`interpolate_video.py`, `load_model`) -/

/-- A value stored in a torch checkpoint mapping: either a tensor (a model
parameter value, abstracted as `V`) or a nested mapping of parameter names
to tensors (as found under the `"state_dict"` key). -/
inductive CkptEntry (V : Type) where
  | tensor (v : V)
  | table (sd : List (String × V))
  deriving DecidableEq, Repr

/-- Torch loading `model.load_state_dict(sd, strict=False)`: every model parameter whose
name occurs in `sd` takes the checkpoint's value; parameters missing from
`sd` keep their current value; keys of `sd` unknown to the model are
ignored.  Non-strict loading never fails. -/
def load_state_dict (model : List (String × V)) (sd : List (String × V)) :
    List (String × V) :=
  model.map (fun p =>
    match sd.lookup p.1 with
    | some v => (p.1, v)
    | none => p)

/-- The tensor-valued entries of a checkpoint mapping, i.e. the flat
state-dict it denotes when used directly as `model.load_state_dict(checkpoint)`. -/
def tensorEntries (ck : List (String × CkptEntry V)) : List (String × V) :=
  ck.filterMap (fun p =>
    match p.2 with
    | CkptEntry.tensor v => some (p.1, v)
    | CkptEntry.table _ => none)

/-- Lines 28-33 of `load_model`: after `torch.load`, dispatch on
`if "state_dict" in checkpoint`, loading `checkpoint["state_dict"]`
non-strictly in the wrapped case and `checkpoint` itself non-strictly in
the flat case.  `none` models the failure raised when the value under
`"state_dict"` is a bare tensor rather than a mapping. -/
def load_model (model : List (String × V)) (ck : List (String × CkptEntry V)) :
    Option (List (String × V)) :=
  match ck.lookup "state_dict" with
  | some (CkptEntry.table sd) => some (load_state_dict model sd)
  | some (CkptEntry.tensor _) => none
  | none => some (load_state_dict model (tensorEntries ck))

/-- A flat checkpoint: the state-dict stored directly as the top-level
mapping, every value a tensor. -/
def flatCkpt (sd : List (String × V)) : List (String × CkptEntry V) :=
  sd.map (fun p => (p.1, CkptEntry.tensor p.2))

/-- A wrapped checkpoint: the state-dict stored one level deep under the
`"state_dict"` key. -/
def wrappedCkpt (sd : List (String × V)) : List (String × CkptEntry V) :=
  [("state_dict", CkptEntry.table sd)]

/-! ## Checkpoint fetcher (`download_checkpoints.py`) -/

/-- The HTTP response behaviour seen by `download_file`: whether
`raise_for_status` passes, the parsed `content-length` header if the server
sent one, and the streamed body chunks (byte lists) in arrival order. -/
structure Response where
  ok : Bool
  contentLength : Option ℕ
  chunks : List (List ℕ)
  deriving DecidableEq, Repr

/-- The exceptions `main`'s handlers distinguish. -/
inductive FetchErr where
  | requestException
  | badZipFile
  deriving DecidableEq, Repr

/-- Observable result of a completed `download_file` call: the `total_size`
used for the progress bar, the bytes of the local file in order, and the
sequence of progress-bar updates (`pbar.update(len(chunk))`). -/
structure DownloadTrace where
  total_size : ℕ
  fileBytes : List ℕ
  updates : List ℕ
  deriving DecidableEq, Repr

/-- Lines 22-44: `requests.get` / `raise_for_status` (a transport or HTTP
error raises `RequestException`), then
`total_size = int(response.headers.get('content-length', 0))`, then the
write loop `for chunk in response.iter_content(...): if chunk: f.write(chunk);
pbar.update(len(chunk))`, skipping falsy (empty) chunks. -/
def download_file (resp : Response) : Except FetchErr DownloadTrace :=
  if resp.ok = false then Except.error FetchErr.requestException
  else
    let total_size := resp.contentLength.getD 0
    let written := resp.chunks.foldl
      (fun acc chunk => if chunk.isEmpty then acc else acc ++ chunk) []
    let updates := resp.chunks.foldl
      (fun acc chunk => if chunk.isEmpty then acc else acc ++ [chunk.length]) []
    Except.ok ⟨total_size, written, updates⟩

/-- The archive outcome seen by `extract_zip`: either a readable ZIP with
its entry names, or a corrupt/truncated file on which `zipfile.ZipFile`
raises `BadZipFile`. -/
inductive Archive where
  | valid (entries : List String)
  | corrupt
  deriving DecidableEq, Repr

/-- Lines 47-58: open the archive and extract every entry; a corrupt
archive raises `BadZipFile`. -/
def extract_zip (ar : Archive) : Except FetchErr (List String) :=
  match ar with
  | Archive.valid entries => Except.ok entries
  | Archive.corrupt => Except.error FetchErr.badZipFile

/-- Observable outcome of one run of the fetcher's `main`: the process
exit code, the temporary archive file left on disk at exit (if any), and
how many times the download was attempted. -/
structure FetchRun where
  exitCode : ℕ
  zipFile : Option (List ℕ)
  downloadCalls : ℕ
  deriving DecidableEq, Repr

/-- Lines 76-125 of `main`: the `try` block downloads once into the temp
ZIP path and extracts it; `except requests.RequestException` exits with
status 1 (no retry, and the temp file was never created since `open` comes
after the failed request); `except zipfile.BadZipFile` deletes the temp
file if it exists (`if zip_path.exists(): zip_path.unlink()`) and exits
with status 1; on success the temp file is unlinked and the process exits 0. -/
def fetcherMain (resp : Response) (ar : Archive) : FetchRun :=
  match download_file resp with
  | Except.error _ => ⟨1, none, 1⟩
  | Except.ok tr =>
      match extract_zip ar with
      | Except.error _ =>
          let zipOnDisk : Option (List ℕ) := some tr.fileBytes
          ⟨1, if zipOnDisk.isSome then none else zipOnDisk, 1⟩
      | Except.ok _ => ⟨0, none, 1⟩

/-! ## Helper lemmas -/

theorem interpTimes_zero : interpTimes 0 = [] := rfl

theorem pairWrites_zero (interp : α → α → ℚ → α) (f0 f1 : α) :
    pairWrites interp 0 f0 f1 = [f0] := rfl

theorem pairLoop_zero (interp : α → α → ℚ → α) (l : List α) :
    pairLoop interp 0 l = l.dropLast := by
  induction l with
  | nil => rfl
  | cons f rest ih =>
    cases rest with
    | nil => rfl
    | cons f1 rest' =>
      simp only [pairLoop, pairWrites_zero, List.singleton_append, List.dropLast_cons₂]
      rw [ih]

theorem callLoop_zero (l : List α) : callLoop 0 l = ([] : List (α × α × ℚ)) := by
  induction l with
  | nil => rfl
  | cons f rest ih =>
    cases rest with
    | nil => rfl
    | cons f1 rest' =>
      simp only [callLoop, pairCalls, interpTimes_zero, List.map_nil, List.nil_append]
      exact ih

theorem runWrites_zero (interp : α → α → ℚ → α) (frames : List α)
    (hne : frames ≠ []) : runWrites interp 0 frames = (frames, none) := by
  unfold runWrites
  rw [List.getLast?_eq_getLast frames hne, pairLoop_zero]
  show (frames.dropLast ++ [frames.getLast hne], none) = (frames, none)
  rw [List.dropLast_append_getLast hne]

theorem pyRound_one : pyRound 1 = 1 := by
  norm_num [pyRound]

theorem clampFactor_of_le {q : ℚ} (h : q ≤ 1) : clampFactor q = 1 := by
  simp [clampFactor, h]

theorem pairLoop_append_getLast (interp : α → α → ℚ → α) (N : ℕ)
    (frames : List α) (hne : frames ≠ []) :
    pairLoop interp N frames ++ [frames.getLast hne]
      = uniformInterleave interp N frames := by
  induction frames with
  | nil => exact absurd rfl hne
  | cons f rest ih =>
    cases rest with
    | nil => rfl
    | cons f1 rest' =>
      have hne' : f1 :: rest' ≠ [] := by simp
      simp only [pairLoop, uniformInterleave, pairWrites, List.append_assoc]
      rw [List.getLast_cons hne', ih hne']

theorem uniformInterleave_length (interp : α → α → ℚ → α) (N : ℕ)
    (frames : List α) (hne : frames ≠ []) :
    (uniformInterleave interp N frames).length
      = frames.length + (frames.length - 1) * N := by
  induction frames with
  | nil => exact absurd rfl hne
  | cons f rest ih =>
    cases rest with
    | nil => simp [uniformInterleave]
    | cons f1 rest' =>
      have hne' : f1 :: rest' ≠ [] := by simp
      have hlen : ((interpTimes N).map (interp f f1)).length = N := by
        rw [List.length_map, interpTimes, List.length_map, List.length_range]

      simp only [uniformInterleave, List.length_append, List.length_cons, hlen]
      rw [ih hne']
      simp only [List.length_cons, Nat.add_sub_cancel]
      ring

/-! ## Claim theorems: frame-rate upconverter -/

/-- C1: for every non-empty frame sequence, whenever `target_fps / fps ≤ 1`
(the factor is clamped to 1) or the computed `interp_count` is 0, the
upconverter writes exactly the input frames, in order, with no error and
with no interpolation calls at the computed count. -/
theorem upconvert_passthrough (interp : α → α → ℚ → α) (t s : ℚ)
    (frames : List α) (hs : s ≠ 0) (hne : frames ≠ [])
    (h : t / s ≤ 1 ∨ (pyRound (clampFactor (t / s)) - 1).toNat = 0) :
    upconvert interp t s frames = (frames, none) ∧
    callLoop ((pyRound (clampFactor (t / s)) - 1).toNat) frames
      = ([] : List (α × α × ℚ)) := by
  have hN : (pyRound (clampFactor (t / s)) - 1).toNat = 0 := by
    rcases h with h | h
    · rw [clampFactor_of_le h, pyRound_one]
      decide
    · exact h
  refine ⟨?_, by rw [hN]; exact callLoop_zero frames⟩
  simp only [upconvert, if_neg hs]
  rw [hN]
  exact runWrites_zero interp frames hne

/-- Witness for C1 at `target_fps = 12`, `fps = 24`, two concrete frames. -/
theorem upconvert_passthrough_witness :
    upconvert (fun a _ _ => a) 12 24 [(5 : ℤ), 7] = ([5, 7], none) ∧
    callLoop ((pyRound (clampFactor ((12 : ℚ) / 24)) - 1).toNat) [(5 : ℤ), 7]
      = ([] : List (ℤ × ℤ × ℚ)) :=
  upconvert_passthrough (fun a _ _ => a) 12 24 [(5 : ℤ), 7]
    (by norm_num) (by simp) (Or.inl (by norm_num))

/-- C2: on a two-frame video with `interp_count = N`, the writes are
exactly frame 0, then the `N` synthetic frames `interp f0 f1 (k/(N+1))`
for `k = 1..N` in ascending order, then frame 1, for a total of `2 + N`
frames, with no error. -/
theorem runWrites_two_frames (interp : α → α → ℚ → α) (N : ℕ) (f0 f1 : α) :
    runWrites interp N [f0, f1]
      = (f0 :: ((List.range N).map
          (fun k => interp f0 f1 (((k + 1 : ℕ) : ℚ) / ((N + 1 : ℕ) : ℚ)))
          ++ [f1]), none)
    ∧ (runWrites interp N [f0, f1]).1.length = 2 + N := by
  have h1 : runWrites interp N [f0, f1]
      = (pairWrites interp N f0 f1 ++ [f1], none) := by
    simp [runWrites, pairLoop]
  constructor
  · rw [h1]
    simp only [pairWrites, interpTimes, List.map_map, List.cons_append]
    rfl
  · rw [h1]
    simp only [pairWrites, interpTimes, List.length_append, List.length_cons,
      List.length_map, List.length_range, List.length_nil]
    omega

/-- C3: with a readable source fps, the upconverter runs the write loop at
the single global count `interp_count = round(target_fps / fps clamped) - 1`
derived from `factor = target_fps / fps`; every consecutive pair's loop
iteration contributes its original frame plus exactly `N` synthetic frames,
i.e. exactly `N` interpolation calls, with no per-pair adjustment. -/
theorem interp_count_uniform (interp : α → α → ℚ → α) (t s : ℚ)
    (frames : List α) (N : ℕ) (f0 f1 : α) (rest : List α) (hs : s ≠ 0) :
    upconvert interp t s frames
      = runWrites interp ((pyRound (clampFactor (t / s)) - 1).toNat) frames
    ∧ pairLoop interp N (f0 :: f1 :: rest)
      = pairWrites interp N f0 f1 ++ pairLoop interp N (f1 :: rest)
    ∧ (pairWrites interp N f0 f1).length = 1 + N
    ∧ (pairCalls N f0 f1).length = N := by
  refine ⟨by simp only [upconvert, if_neg hs], rfl, ?_, ?_⟩
  · simp only [pairWrites, List.length_cons, List.length_map, interpTimes,
      List.length_range]
    omega
  · simp only [pairCalls, List.length_map, interpTimes, List.length_range]

/-- Witness for C3 at `target_fps = 60`, `fps = 24`, `N = 2`. -/
theorem interp_count_uniform_witness :
    upconvert (fun a b _ => a + b) 60 24 [(1 : ℤ), 2, 3]
      = runWrites (fun a b _ => a + b)
          ((pyRound (clampFactor ((60 : ℚ) / 24)) - 1).toNat) [(1 : ℤ), 2, 3]
    ∧ pairLoop (fun a b _ => a + b) 2 ((1 : ℤ) :: 2 :: [3])
      = pairWrites (fun a b _ => a + b) 2 (1 : ℤ) 2
          ++ pairLoop (fun a b _ => a + b) 2 ((2 : ℤ) :: [3])
    ∧ (pairWrites (fun a b _ => a + b) 2 (1 : ℤ) 2).length = 1 + 2
    ∧ (pairCalls 2 (1 : ℤ) 2).length = 2 :=
  interp_count_uniform (fun a b _ => a + b) 60 24 [(1 : ℤ), 2, 3] 2 1 2 [3]
    (by norm_num)

/-- C4: on an empty decoded frame sequence the loop writes nothing, but the
final `out.write(frames[-1])` still executes and raises an IndexError when
indexing the empty list — the final write is not skipped cleanly. -/
theorem runWrites_empty_indexError (interp : α → α → ℚ → α) (N : ℕ) :
    runWrites interp N ([] : List α) = ([], some UpErr.indexError) := rfl

/-- C5: on a one-frame video the pair loop body never executes: the only
write is that frame verbatim, there is no error, and the interpolation
capability is invoked zero times. -/
theorem runWrites_single_frame (interp : α → α → ℚ → α) (N : ℕ) (f : α) :
    runWrites interp N [f] = ([f], none)
    ∧ callLoop N [f] = ([] : List (α × α × ℚ)) :=
  ⟨rfl, rfl⟩

/-- C9: for every non-empty frame list and uniform count `N`, the write
loop produces exactly the spec-shaped interleaving — each original frame in
input order followed by its `N` synthetic frames, final frame verbatim —
and hence exactly `n + (n-1)·N` frames in total, with no error. -/
theorem runWrites_uniformInterleave (interp : α → α → ℚ → α) (N : ℕ)
    (frames : List α) (hne : frames ≠ []) :
    runWrites interp N frames = (uniformInterleave interp N frames, none)
    ∧ (uniformInterleave interp N frames).length
        = frames.length + (frames.length - 1) * N := by
  refine ⟨?_, uniformInterleave_length interp N frames hne⟩
  unfold runWrites
  rw [List.getLast?_eq_getLast frames hne]
  show (pairLoop interp N frames ++ [frames.getLast hne], none) = _
  rw [pairLoop_append_getLast interp N frames hne]

/-- Witness for C9 on a concrete three-frame video with `N = 1`. -/
theorem runWrites_uniformInterleave_witness :
    runWrites (fun a b _ => a + b) 1 [(1 : ℤ), 2, 3]
      = (uniformInterleave (fun a b _ => a + b) 1 [(1 : ℤ), 2, 3], none)
    ∧ (uniformInterleave (fun a b _ => a + b) 1 [(1 : ℤ), 2, 3]).length
        = [(1 : ℤ), 2, 3].length + ([(1 : ℤ), 2, 3].length - 1) * 1 :=
  runWrites_uniformInterleave (fun a b _ => a + b) 1 [(1 : ℤ), 2, 3] (by simp)

/-- C10: when the decoder reports `fps = 0` and `target_fps > 0`, the
factor computation divides by zero: the run raises before the write loop,
producing zero writes and no passthrough. -/
theorem upconvert_zero_fps (interp : α → α → ℚ → α) (t : ℚ)
    (frames : List α) (_ht : 0 < t) :
    upconvert interp t 0 frames = ([], some UpErr.zeroDivisionError) := by
  simp [upconvert]

/-- Witness for C10 at `target_fps = 24` on a concrete two-frame video. -/
theorem upconvert_zero_fps_witness :
    upconvert (fun a b _ => a + b) 24 0 [(1 : ℤ), 2]
      = ([], some UpErr.zeroDivisionError) :=
  upconvert_zero_fps (fun a b _ => a + b) 24 [(1 : ℤ), 2] (by norm_num)

/-! ## Claim theorems: checkpoint loading and fetcher -/

theorem lookup_flatCkpt {V : Type} (sd : List (String × V))
    (h : sd.lookup "state_dict" = none) :
    (flatCkpt sd).lookup "state_dict" = (none : Option (CkptEntry V)) := by
  induction sd with
  | nil => rfl
  | cons p rest ih =>
    simp only [flatCkpt, List.map_cons, List.lookup] at *
    cases hb : ("state_dict" == p.1) with
    | true => simp [hb] at h
    | false =>
      simp only [hb] at h ⊢
      exact ih h

theorem tensorEntries_flatCkpt {V : Type} (sd : List (String × V)) :
    tensorEntries (flatCkpt sd) = sd := by
  induction sd with
  | nil => rfl
  | cons p rest ih =>
    simp only [flatCkpt, List.map_cons, tensorEntries, List.filterMap_cons] at *
    rw [ih]

/-- C6: a flat checkpoint mapping and the same mapping wrapped under the
`"state_dict"` key load to the same model state, and loading succeeds
non-strictly for arbitrary model/checkpoint name mismatch (the hypothesis
only excludes a flat checkpoint that itself owns a parameter literally
named `"state_dict"`, which the dispatch would misread as a wrapper). -/
theorem load_model_both_forms {V : Type} (model sd : List (String × V))
    (h : sd.lookup "state_dict" = none) :
    load_model model (flatCkpt sd) = some (load_state_dict model sd)
    ∧ load_model model (wrappedCkpt sd) = some (load_state_dict model sd) := by
  constructor
  · unfold load_model
    rw [lookup_flatCkpt sd h]
    show some (load_state_dict model (tensorEntries (flatCkpt sd))) = _
    rw [tensorEntries_flatCkpt]
  · rfl

/-- Witness for C6 on a concrete model state and checkpoint with both an
unknown and a missing parameter name. -/
theorem load_model_both_forms_witness :
    load_model [("w", (0 : ℤ)), ("extra", 9)] (flatCkpt [("w", 5), ("unknown", 7)])
      = some (load_state_dict [("w", (0 : ℤ)), ("extra", 9)] [("w", 5), ("unknown", 7)])
    ∧ load_model [("w", (0 : ℤ)), ("extra", 9)] (wrappedCkpt [("w", 5), ("unknown", 7)])
      = some (load_state_dict [("w", (0 : ℤ)), ("extra", 9)] [("w", 5), ("unknown", 7)]) :=
  load_model_both_forms [("w", (0 : ℤ)), ("extra", 9)] [("w", 5), ("unknown", 7)] rfl

/-- C7: when the archive is corrupt the fetcher exits with status 1 having
deleted the downloaded temporary archive; when the download fails with a
transport error the fetcher exits with status 1 after exactly one download
attempt (no retry). -/
theorem fetcher_failure_handling (resp respFail : Response) (ar : Archive)
    (hok : resp.ok = true) (hfail : respFail.ok = false) :
    (fetcherMain resp Archive.corrupt).exitCode = 1
    ∧ (fetcherMain resp Archive.corrupt).zipFile = none
    ∧ fetcherMain respFail ar = ⟨1, none, 1⟩ := by
  refine ⟨?_, ?_, ?_⟩ <;>
    simp [fetcherMain, download_file, extract_zip, hok, hfail]

/-- Witness for C7 on a concrete good response, failing response and
archive. -/
theorem fetcher_failure_handling_witness :
    (fetcherMain ⟨true, some 3, [[1, 2, 3]]⟩ Archive.corrupt).exitCode = 1
    ∧ (fetcherMain ⟨true, some 3, [[1, 2, 3]]⟩ Archive.corrupt).zipFile = none
    ∧ fetcherMain ⟨false, none, []⟩ (Archive.valid ["a.pth"]) = ⟨1, none, 1⟩ :=
  fetcher_failure_handling ⟨true, some 3, [[1, 2, 3]]⟩ ⟨false, none, []⟩
    (Archive.valid ["a.pth"]) rfl rfl

theorem foldl_write_chunks (chunks : List (List ℕ)) (acc : List ℕ) :
    chunks.foldl (fun acc chunk => if chunk.isEmpty then acc else acc ++ chunk) acc
      = acc ++ chunks.flatten := by
  induction chunks generalizing acc with
  | nil => simp
  | cons c cs ih =>
    cases c with
    | nil =>
      rw [List.foldl_cons]
      show List.foldl _ acc cs = acc ++ ([] :: cs).flatten
      rw [ih, List.flatten_cons, List.nil_append]
    | cons x xs =>
      rw [List.foldl_cons]
      show List.foldl _ (acc ++ (x :: xs)) cs = acc ++ ((x :: xs) :: cs).flatten
      rw [ih, List.flatten_cons, List.append_assoc]

/-- C8: when the response omits the content-length header, the download
still succeeds, the progress total falls back to 0, and the final file
content is exactly the concatenation of the streamed body chunks in order. -/
theorem download_no_content_length (resp : Response)
    (hok : resp.ok = true) (hcl : resp.contentLength = none) :
    ∃ tr, download_file resp = Except.ok tr
      ∧ tr.total_size = 0 ∧ tr.fileBytes = resp.chunks.flatten := by
  refine ⟨⟨0, resp.chunks.flatten,
    resp.chunks.foldl
      (fun acc chunk => if chunk.isEmpty then acc else acc ++ [chunk.length]) []⟩,
    ?_, rfl, rfl⟩
  simp only [download_file, hok, Bool.true_eq_false, if_false, hcl,
    Option.getD_none, foldl_write_chunks, List.nil_append]

/-- Witness for C8 on a concrete chunked response with an empty chunk. -/
theorem download_no_content_length_witness :
    ∃ tr, download_file ⟨true, none, [[1, 2], [], [3]]⟩ = Except.ok tr
      ∧ tr.total_size = 0
      ∧ tr.fileBytes = (⟨true, none, [[1, 2], [], [3]]⟩ : Response).chunks.flatten :=
  download_no_content_length ⟨true, none, [[1, 2], [], [3]]⟩ rfl rfl

end IFRNet
